import Mathlib

/-!
Verification of the natural-language specification of the CodeSage
dependency-graph builder (`backend/app/graph_builder.py`) against a shallow
embedding of its code.

The embedding translates the Python source faithfully:
* the Python `ast` nodes the builder inspects become the inductive types
  `PyExpr` / `PyStmt` (the textual parser is an external component; a source
  file is represented by its parse result, spans and source segments given);
* the filesystem snapshot consumed by `os.walk` / `os.path.isfile` / `open`
  becomes `DirTree` / `FileEntry` / `FileContent`;
* the `networkx.MultiDiGraph` becomes `Graph`: an association list of nodes
  (key, attribute record) in insertion order plus a list (multiset) of edges;
  `add_node` merges attributes, `add_edge` implicitly creates missing endpoint
  nodes, `remove_node` drops the node and all incident edges, exactly as in
  networkx;
* exceptions escaping `build_graph` (OSError from `open`, UnicodeDecodeError
  from strict reads) become `Except BuildErr`.
-/

namespace CodeSage

/-! ## Python AST (the fragment `graph_builder.py` inspects) -/

/-- Expressions: `ast.Name`, `ast.Attribute`, `ast.Call`, and a constructor
standing for every other expression kind (the builder only ever matches on
these three). -/
inductive PyExpr where
  | name (id : String)
  | attr (value : PyExpr) (attrName : String)
  | call (func : PyExpr) (args : List PyExpr)
  | const
deriving Repr

/-- Statements: `ast.ClassDef`, `ast.FunctionDef`, `ast.AsyncFunctionDef`,
`ast.Import`, `ast.ImportFrom`, expression statements, and `pass` standing for
every other statement kind.  `lineno`/`endLineno`/`segment` carry
`node.lineno`, `node.end_lineno` and `ast.get_source_segment` for def nodes
(data produced by the external parser). Import aliases are `(name, asname)`
pairs. -/
inductive PyStmt where
  | classDef (name : String) (bases : List PyExpr) (body : List PyStmt)
      (lineno endLineno : Nat) (segment : Option String)
  | functionDef (name : String) (body : List PyStmt)
      (lineno endLineno : Nat) (segment : Option String)
  | asyncFunctionDef (name : String) (body : List PyStmt)
      (lineno endLineno : Nat) (segment : Option String)
  | importStmt (names : List (String × Option String))
  | importFrom (module : Option String) (names : List (String × Option String)) (level : Nat)
  | exprStmt (e : PyExpr)
  | pass
deriving Repr

/-! ## Filesystem snapshot -/

/-- What `open`/`ast.parse` can observe about one file:
* `readable = false` — `open`/`read` raises `OSError`;
* `decodable = false` — a strict utf-8 `read` raises `UnicodeDecodeError`;
* `text` — the decoded content (meaningful when `readable ∧ decodable`);
* `textIgnore` — content as decoded with `errors="ignore"` (used for README);
* `tree` — `ast.parse text` for a `.py` file, `none` on `SyntaxError`. -/
structure FileContent where
  readable : Bool
  decodable : Bool
  text : String
  textIgnore : String
  tree : Option (List PyStmt)
deriving Repr

structure FileEntry where
  fname : String
  content : FileContent
deriving Repr

/-- A directory: files and named subdirectories, in `os.walk` listing order. -/
inductive DirTree where
  | mk (files : List FileEntry) (subdirs : List (String × DirTree))
deriving Repr

def DirTree.files : DirTree → List FileEntry
  | .mk fs _ => fs

def DirTree.subdirs : DirTree → List (String × DirTree)
  | .mk _ ds => ds

/-- A repository snapshot: the nonempty components of the absolute path of the
repository root (what `repo_path.split(os.sep)` yields, sans leading empty
component) and the root directory's contents. -/
structure Repo where
  absPath : List String
  root : DirTree

/-- `os.path.isfile(os.path.join(root, *comps))` over the snapshot. -/
def DirTree.isfile : DirTree → List String → Bool
  | _, [] => false
  | t, [n] => t.files.any (fun f => f.fname == n)
  | t, n :: rest =>
    match t.subdirs.find? (fun p => p.1 == n) with
    | some p => p.2.isfile rest
    | none => false

/-- Content of a file directly in this directory, if present. -/
def DirTree.findFile (t : DirTree) (n : String) : Option FileContent :=
  (t.files.find? (fun f => f.fname == n)).map FileEntry.content

/-! ## The graph (`networkx.MultiDiGraph`) -/

/-- Node attributes; `none` = attribute not set on the node. Nodes implicitly
created by `add_edge` have every attribute unset. -/
structure NodeData where
  type : Option String := none
  file_path : Option String := none
  code : Option String := none
  start_line : Option Nat := none
  end_line : Option Nat := none
deriving Repr, DecidableEq

/-- An edge with its `type` attribute; `al = some a` models the `alias=a`
keyword attribute present on plain-import edges (`a` itself is the Python
`asname`, possibly `None`). -/
structure Edge where
  src : String
  tgt : String
  type : String
  al : Option (Option String)
deriving Repr, DecidableEq

structure Graph where
  nodes : List (String × NodeData)
  edges : List Edge
deriving Repr, DecidableEq

def Graph.hasNode (G : Graph) (k : String) : Bool :=
  G.nodes.any (fun p => p.1 == k)

def Graph.lookup (G : Graph) (k : String) : Option NodeData :=
  (G.nodes.find? (fun p => p.1 == k)).map Prod.snd

/-- networkx `add_node` attribute merge: provided attributes overwrite,
missing ones are kept. -/
def mergeData (old new : NodeData) : NodeData :=
  { type := new.type.orElse fun _ => old.type
    file_path := new.file_path.orElse fun _ => old.file_path
    code := new.code.orElse fun _ => old.code
    start_line := new.start_line.orElse fun _ => old.start_line
    end_line := new.end_line.orElse fun _ => old.end_line }

def Graph.addNode (G : Graph) (k : String) (d : NodeData) : Graph :=
  if G.hasNode k then
    { G with nodes := G.nodes.map (fun p => if p.1 == k then (p.1, mergeData p.2 d) else p) }
  else
    { G with nodes := G.nodes ++ [(k, d)] }

/-- `add_edge` auto-creates absent endpoints with no attributes. -/
def Graph.ensureNode (G : Graph) (k : String) : Graph :=
  if G.hasNode k then G else { G with nodes := G.nodes ++ [(k, {})] }

def Graph.addEdge (G : Graph) (u v ty : String) (al : Option (Option String)) : Graph :=
  let G1 := (G.ensureNode u).ensureNode v
  { G1 with edges := G1.edges ++ [⟨u, v, ty, al⟩] }

def Graph.removeNode (G : Graph) (k : String) : Graph :=
  { nodes := G.nodes.filter (fun p => p.1 != k)
    edges := G.edges.filter (fun e => e.src != k && e.tgt != k) }

/-! ## String operations

Kernel-computable equivalents of the Python string operations the builder
uses (`str.split` on a one-character separator, `str.join`, `str.startswith`,
`str.endswith`, `str.lower`, `str.strip`, substring test for a one-character
needle), written by structural recursion on the character list. -/

/-- Python `s.split(sep)` for a one-character separator (`os.sep`, `"."`):
`"".split(sep) == [""]`, empty pieces are kept. -/
def splitChars (sep : Char) : List Char → List (List Char)
  | [] => [[]]
  | c :: rest =>
    let r := splitChars sep rest
    if c == sep then [] :: r
    else
      match r with
      | [] => [[c]]
      | h :: t => (c :: h) :: t

def strSplit (s : String) (sep : Char) : List String :=
  (splitChars sep s.data).map String.mk

/-- Python `sep.join(parts)`. -/
def strJoin (sep : String) : List String → String
  | [] => ""
  | [x] => x
  | x :: y :: rest => x ++ sep ++ strJoin sep (y :: rest)

def charsStartWith : List Char → List Char → Bool
  | _, [] => true
  | [], _ :: _ => false
  | c :: cs, p :: ps => c == p && charsStartWith cs ps

/-- Python `s.startswith(p)`. -/
def strStartsWith (s p : String) : Bool :=
  charsStartWith s.data p.data

/-- Python `s.endswith(p)`. -/
def strEndsWith (s p : String) : Bool :=
  charsStartWith s.data.reverse p.data.reverse

/-- Python `s.lower()` (ASCII range; the suffixes compared against are
ASCII). -/
def strToLower (s : String) : String :=
  String.mk (s.data.map Char.toLower)

/-- Python `str.isspace` characters relevant to `str.strip()` (ASCII
whitespace). -/
def pyIsSpace (c : Char) : Bool :=
  c == ' ' || c == '\t' || c == '\n' || c == '\r' || c == '\x0b' || c == '\x0c'

/-- Python `s.strip()`. -/
def strStrip (s : String) : String :=
  String.mk (((s.data.dropWhile pyIsSpace).reverse.dropWhile pyIsSpace).reverse)

/-- Python `c in s` for a one-character needle. -/
def strContainsChar (s : String) (c : Char) : Bool :=
  s.data.any (fun ch => ch == c)

/-! ## Constants and path helpers -/

def SKIP_DIRS : List String :=
  [".git", ".github", ".mypy_cache", "__pycache__", ".idea", "venv", "env",
   "assets", "evaluation", "plots", "repo_index", "scripts", "ven"]

def GENERIC_FILE_SUFFIXES : List String :=
  [".js", ".jsx", ".ts", ".tsx", ".md", ".txt", ".ipynb", ".json", ".yaml",
   ".yml", ".cfg", ".toml"]

/-- `_is_skip_dir`: does any skip name occur among the path's components?
(The Python takes the path string and splits on `os.sep`; here the component
list is passed directly.) -/
def is_skip_dir (parts : List String) : Bool :=
  SKIP_DIRS.any (fun skip => parts.contains skip)

/-- Join repository-relative path components with the separator. -/
def joinRel (comps : List String) : String :=
  strJoin "/" comps

/-- `os.path.dirname` on a relative path string. -/
def dirname (s : String) : String :=
  strJoin "/" (strSplit s '/').dropLast

/-- Errors that escape `build_graph` as Python exceptions. -/
inductive BuildErr where
  | osError
  | unicodeDecodeError
deriving Repr, DecidableEq

/-- `_read_tree`: strict utf-8 read then `ast.parse`; `UnicodeDecodeError` and
`SyntaxError` yield `None`, but an `OSError` from `open` is not caught. -/
def read_tree (c : FileContent) : Except BuildErr (Option (List PyStmt)) :=
  if !c.readable then .error .osError
  else .ok (if c.decodable then c.tree else none)

/-- `_resolve_module`: `'a.b.c'` ↦ `a/b/c.py` under the repo root, else
`a/b/c/__init__.py`, else unresolved.  Returns the relative path components of
the found file.  Empty name segments vanish under `os.path.join`; a wholly
empty module name makes the `.py` candidate fall outside the snapshot (it
names `<repo>.py`), modelled as absent. -/
def resolve_module (module : String) (root : DirTree) : Option (List String) :=
  let comps := (strSplit module '.').filter (fun c => c != "")
  let pyFound :=
    match comps.getLast? with
    | none => none
    | some last =>
      let cand := comps.dropLast ++ [last ++ ".py"]
      if root.isfile cand then some cand else none
  match pyFound with
  | some cand => some cand
  | none =>
    let initCand := comps ++ ["__init__.py"]
    if root.isfile initCand then some initCand else none

/-! ## Symbol extractor (`_CodeAnalyzer` / `_analyze_file`) -/

/-- One entry of `_CodeAnalyzer.results`. -/
structure SymbolMeta where
  name : String
  type : String
  code : Option String
  start : Nat
  endL : Nat
deriving Repr, DecidableEq

/-! The visitor's two stacks are bottom-first lists (Python appends at the
end; the top of the stack is the last element).  `visit_ClassDef` records and
recurses; `visit_FunctionDef` returns without recording or recursing when the
enclosing scope is a class and the name is `__init__`; `visit_AsyncFunctionDef`
records unconditionally.  Other statements are traversed by `generic_visit`,
which in this fragment reaches no further def nodes. -/
mutual

def analyzeStmt (ns ts : List String) : PyStmt → List SymbolMeta
  | .classDef name _ body l e seg =>
    { name := strJoin "." (ns ++ [name]), type := "class",
      code := seg, start := l, endL := e } ::
      analyzeList (ns ++ [name]) (ts ++ ["class"]) body
  | .functionDef name body l e seg =>
    if ts.getLast? == some "class" && name == "__init__" then []
    else
      { name := strJoin "." (ns ++ [name]), type := "function",
        code := seg, start := l, endL := e } ::
        analyzeList (ns ++ [name]) (ts ++ ["function"]) body
  | .asyncFunctionDef name body l e seg =>
    { name := strJoin "." (ns ++ [name]), type := "function",
      code := seg, start := l, endL := e } ::
      analyzeList (ns ++ [name]) (ts ++ ["function"]) body
  | .importStmt _ => []
  | .importFrom _ _ _ => []
  | .exprStmt _ => []
  | .pass => []

def analyzeList (ns ts : List String) : List PyStmt → List SymbolMeta
  | [] => []
  | s :: rest => analyzeStmt ns ts s ++ analyzeList ns ts rest

end

/-- `_analyze_file`: parse (already done by the snapshot) and run the
analyzer; an unparseable file contributes nothing.  Callers in `build_graph`
only reach this after a successful strict read of the same file. -/
def analyze_file (c : FileContent) : List SymbolMeta :=
  if c.readable && c.decodable then
    match c.tree with
    | none => []
    | some tree => analyzeList [] [] tree
  else []

/-! ## Import enumeration (`_find_imports`) -/

inductive ImportRec where
  | plain (module : String) (asname : Option String)
  | fromImport (module : String) (entities : List (String × Option String))
deriving Repr, DecidableEq

/-! The `ast.walk` pass of `_find_imports` collects `Import`/`ImportFrom`
nodes anywhere in the tree.  For a relative import (`level > 0`) the module is
anchored at the importing file: `relComps` is the file's repository-relative
path split on the separator (its last component is the filename), of which the
last `level` components are dropped. -/
mutual

def findImportsS (relComps : List String) : PyStmt → List ImportRec
  | .importStmt names => names.map (fun a => .plain a.1 a.2)
  | .importFrom m names level =>
    let module :=
      if level > 0 then
        let parts := relComps.take (relComps.length - level)
        strJoin "." (parts ++ (match m with | none => [] | some mm => [mm]))
      else m.getD ""
    [.fromImport module names]
  | .classDef _ _ body _ _ _ => findImportsL relComps body
  | .functionDef _ body _ _ _ => findImportsL relComps body
  | .asyncFunctionDef _ body _ _ _ => findImportsL relComps body
  | .exprStmt _ => []
  | .pass => []

def findImportsL (relComps : List String) : List PyStmt → List ImportRec
  | [] => []
  | s :: rest => findImportsS relComps s ++ findImportsL relComps rest

end

/-! ## Reference resolution helpers (step 3) -/

/-- Simple trailing name of a base-class or callee expression: an identifier's
`id`, a member access's `attr`, anything else is skipped. -/
def trailingName : PyExpr → Option String
  | .name id => some id
  | .attr _ a => some a
  | _ => none

/-! All callee simple names of `ast.Call` nodes in an expression subtree (a
call with an unextractable callee still exposes the calls nested inside it). -/
mutual

def exprCallNames : PyExpr → List String
  | .name _ => []
  | .attr v _ => exprCallNames v
  | .call f args =>
    (match trailingName f with | some n => [n] | none => []) ++
      exprCallNames f ++ exprListCallNames args
  | .const => []

def exprListCallNames : List PyExpr → List String
  | [] => []
  | e :: rest => exprCallNames e ++ exprListCallNames rest

end

/-! Callee simple names of all `ast.Call` nodes in a statement subtree
(`ast.walk` of a def node reaches calls in nested defs and in nested class
bases as well). -/
mutual

def stmtCallNames : PyStmt → List String
  | .classDef _ bases body _ _ _ => exprListCallNames bases ++ stmtsCallNames body
  | .functionDef _ body _ _ _ => stmtsCallNames body
  | .asyncFunctionDef _ body _ _ _ => stmtsCallNames body
  | .importStmt _ => []
  | .importFrom _ _ _ => []
  | .exprStmt e => exprCallNames e
  | .pass => []

def stmtsCallNames : List PyStmt → List String
  | [] => []
  | s :: rest => stmtCallNames s ++ stmtsCallNames rest

end

/-! All statements of the tree, the statement itself before its body
(`ast.walk` enumerates every node; only its statement order differs, which the
builder's edge multiset does not depend on for membership). -/
mutual

def allStmts : List PyStmt → List PyStmt
  | [] => []
  | s :: rest => stmtSubtree s ++ allStmts rest

def stmtSubtree : PyStmt → List PyStmt
  | .classDef n b body l e seg => .classDef n b body l e seg :: allStmts body
  | .functionDef n body l e seg => .functionDef n body l e seg :: allStmts body
  | .asyncFunctionDef n body l e seg => .asyncFunctionDef n body l e seg :: allStmts body
  | s => [s]

end

/-! ## The walk (`os.walk`) and build steps -/

/-!
`os.walk(repo_path)` top-down: each entry is the directory's
repository-relative path components (`[]` for the root itself) and its files;
a directory is listed before its subdirectories, subdirectories in listing
order.
-/
mutual

def walkEntries : DirTree → List (List String × List FileEntry)
  | .mk files subs => ([], files) :: walkSubs subs

def walkSubs : List (String × DirTree) → List (List String × List FileEntry)
  | [] => []
  | (n, sub) :: rest =>
    (walkEntries sub).map (fun e => (n :: e.1, e.2)) ++ walkSubs rest

end

/-- Mutable state of build_graph's step 1: the graph, `file_nodes`
(repo-relative path string, its components, and the file's content standing
for the absolute path used to reopen it), and the paired
`dir_stack`/`dir_included` lists for pruning (top of stack first here; Python
keeps the top last). -/
structure WalkState where
  g : Graph
  file_nodes : List (String × List String × FileContent)
  dir_stack : List (String × Bool)

/-- The `while dir_stack and not rel_dir.startswith(dir_stack[-1])` loop: pop
the stack, deleting each popped directory node whose inclusion flag is still
False.  (No code path ever sets the flag to True.) -/
def popStack (G : Graph) : List (String × Bool) → String →
    Graph × List (String × Bool)
  | [], _ => (G, [])
  | (top, included) :: rest, rel_dir =>
    if strStartsWith rel_dir top then (G, (top, included) :: rest)
    else
      let G1 := if included then G else G.removeNode top
      popStack G1 rest rel_dir

/-- The per-file body of the step-1 `for fname in files` loop.  A `.py` file
is opened and read with a strict utf-8 decode before its node is added —
`OSError`/`UnicodeDecodeError` escape `build_graph` here; then its symbol
records become class/function nodes with `contains` edges from their lexical
parent.  A generic-suffix file becomes a `generic_file` node.  Anything else
is skipped. -/
def step1File (relComps : List String) (rel_dir : String)
    (st : WalkState) (f : FileEntry) : Except BuildErr WalkState :=
  if strEndsWith f.fname ".py" then
    if !f.content.readable then .error .osError
    else if !f.content.decodable then .error .unicodeDecodeError
    else
      let rel_path := joinRel (relComps ++ [f.fname])
      let G := st.g.addNode rel_path { type := some "file", file_path := some rel_path }
      let G := G.addEdge rel_dir rel_path "contains" none
      let G := (analyze_file f.content).foldl (fun G meta =>
        let nid := rel_path ++ ":" ++ meta.name
        let G := G.addNode nid
          { type := some meta.type, code := meta.code,
            start_line := some meta.start, end_line := some meta.endL,
            file_path := some rel_path }
        let parent_nid :=
          if strContainsChar meta.name '.' then
            rel_path ++ ":" ++ strJoin "." (strSplit meta.name '.').dropLast
          else rel_path
        G.addEdge parent_nid nid "contains" none) G
      let fns := st.file_nodes ++ [(rel_path, relComps ++ [f.fname], f.content)]
      .ok { st with g := G, file_nodes := fns }
  else if GENERIC_FILE_SUFFIXES.any (fun s => strEndsWith (strToLower f.fname) s) then
    let rel_path := joinRel (relComps ++ [f.fname])
    let G := st.g.addNode rel_path { type := some "generic_file", file_path := some rel_path }
    let G := G.addEdge rel_dir rel_path "contains" none
    .ok { st with g := G }
  else .ok st

/-- `rel_dir = os.path.relpath(root, repo_path) or "/"`: `os.path.relpath`
yields `"."` for the root itself and never the empty string, so the `or "/"`
fallback is dead code. -/
def relDirOf (relComps : List String) : String :=
  let rel0 := if relComps.isEmpty then "." else joinRel relComps
  if rel0 == "" then "/" else rel0

/-- The `register directory node` block of step 1. -/
def registerDir (G : Graph) (rel_dir : String) : Graph :=
  if rel_dir != "/" && !G.hasNode rel_dir then
    let parent := if dirname rel_dir == "" then "/" else dirname rel_dir
    (G.addNode rel_dir { type := some "directory", file_path := some rel_dir }).addEdge
      parent rel_dir "contains" none
  else G

/-- One iteration of the step-1 `for root, _dirs, files in os.walk(...)` loop:
skip filtering on the absolute path, `rel_dir` computation, directory-node
registration, the stack pop on ascent, the push of the current directory with
inclusion flag False, then the files. -/
def step1Entry (absPath : List String) (st : WalkState)
    (entry : List String × List FileEntry) : Except BuildErr WalkState :=
  if is_skip_dir (absPath ++ entry.1) then .ok st
  else
    let rel_dir := relDirOf entry.1
    let ps := popStack (registerDir st.g rel_dir) st.dir_stack rel_dir
    let stack := if rel_dir != "/" then (rel_dir, false) :: ps.2 else ps.2
    entry.2.foldlM (step1File entry.1 rel_dir) { st with g := ps.1, dir_stack := stack }

/-- The README candidate probe of step 0: candidates in order, first file that
exists wins. -/
def readme_candidates : List String :=
  ["README.md", "readme.md", "README.txt", "readme.txt", "README"]

def findReadme (root : DirTree) : Option (String × FileContent) :=
  readme_candidates.findSome? (fun c => (root.findFile c).map (fun fc => (c, fc)))

/-- Step 0: read the first README candidate with `errors="ignore"` (so no
decode error, but `open` can still raise `OSError`), strip it, and attach the
`__README__` node under the root. -/
def step0 (root : DirTree) (G : Graph) : Except BuildErr Graph :=
  match findReadme root with
  | none => .ok G
  | some (c, fc) =>
    if !fc.readable then .error .osError
    else
      .ok ((G.addNode "__README__"
        { type := some "readme", file_path := some c,
          code := some (strStrip fc.textIgnore) }).addEdge "/" "__README__" "contains" none)

/-- Step 2, per entity of a named from-import: entity-first resolution
(`module.entity` as a nested module path to a file), falling back to the
qualified symbol key `"<file of module>:<entity>"`; each edge only if the
target node exists. -/
def step2Entity (root : DirTree) (rel_path module : String)
    (G : Graph) (ent : String × Option String) : Graph :=
  let ent_mod := module ++ "." ++ ent.1
  match resolve_module ent_mod root with
  | some comps =>
    let tgt_rel := joinRel comps
    if G.hasNode tgt_rel then G.addEdge rel_path tgt_rel "imports" none else G
  | none =>
    match resolve_module module root with
    | some comps =>
      let node_id := joinRel comps ++ ":" ++ ent.1
      if G.hasNode node_id then G.addEdge rel_path node_id "imports" none else G
    | none => G

/-- Step 2, one structured import record of one file. -/
def step2Import (root : DirTree) (rel_path : String)
    (G : Graph) (imp : ImportRec) : Graph :=
  match imp with
  | .plain module asname =>
    match resolve_module module root with
    | some comps =>
      let tgt_rel := joinRel comps
      if G.hasNode tgt_rel then G.addEdge rel_path tgt_rel "imports" (some asname)
      else G
    | none => G
  | .fromImport module entities =>
    if entities.length == 1 && (entities.head?.map Prod.fst) == some "*" then
      match resolve_module module root with
      | some comps =>
        let tgt_rel := joinRel comps
        if G.hasNode tgt_rel then G.addEdge rel_path tgt_rel "imports" none else G
      | none => G
    else
      entities.foldl (step2Entity root rel_path module) G

/-- Step 2 over one file of `file_nodes` (`_find_imports` re-reads the file;
the read cannot fail here in practice since step 1 already read it, but the
re-read is modelled faithfully). -/
def step2File (root : DirTree) (G : Graph)
    (fn : String × List String × FileContent) : Except BuildErr Graph := do
  let tree? ← read_tree fn.2.2
  let imps := match tree? with
    | none => []
    | some t => findImportsL fn.2.1 t
  return imps.foldl (step2Import root fn.1) G

/-- Step 3, one extracted call name inside a def named `funcName`: the edge
source key uses the def's simple (undotted) name; only the target's existence
is checked. -/
def step3Call (rel_path funcName : String) (G : Graph) (called : String) : Graph :=
  let target_nid := rel_path ++ ":" ++ called
  if G.hasNode target_nid then
    G.addEdge (rel_path ++ ":" ++ funcName) target_nid "invokes" none
  else G

/-- Step 3, one base-class expression of a class named `clsName`. -/
def step3Base (rel_path clsName : String) (G : Graph) (base : PyExpr) : Graph :=
  match trailingName base with
  | none => G
  | some base_name =>
    let target_nid := rel_path ++ ":" ++ base_name
    if G.hasNode target_nid then
      G.addEdge (rel_path ++ ":" ++ clsName) target_nid "inherits" none
    else G

/-- Step 3, one node of the file-wide `ast.walk`: `ClassDef` yields inherits
edges from `<file>:<simple class name>`; def nodes yield invokes edges from
`<file>:<simple def name>` for every call in their subtree. -/
def step3Stmt (rel_path : String) (G : Graph) (s : PyStmt) : Graph :=
  match s with
  | .classDef name bases _ _ _ _ => bases.foldl (step3Base rel_path name) G
  | .functionDef name body _ _ _ =>
    (stmtsCallNames body).foldl (step3Call rel_path name) G
  | .asyncFunctionDef name body _ _ _ =>
    (stmtsCallNames body).foldl (step3Call rel_path name) G
  | _ => G

/-- Step 3 over one file of `file_nodes`. -/
def step3File (G : Graph) (fn : String × List String × FileContent) :
    Except BuildErr Graph := do
  match ← read_tree fn.2.2 with
  | none => return G
  | some tree => return (allStmts tree).foldl (step3Stmt fn.1) G

/-- The graph as initialised: the root sentinel node. -/
def initGraph : Graph :=
  Graph.addNode ⟨[], []⟩ "/" { type := some "directory", file_path := some "/" }

/-- `build_graph` up to the end of step 1 (README probe plus walk). -/
def afterStep1 (repo : Repo) : Except BuildErr WalkState := do
  let G ← step0 repo.root initGraph
  (walkEntries repo.root).foldlM (step1Entry repo.absPath) ⟨G, [], []⟩

/-- `build_graph` up to the end of step 2 (import edges). -/
def afterStep2 (repo : Repo) : Except BuildErr Graph := do
  let st ← afterStep1 repo
  st.file_nodes.foldlM (step2File repo.root) st.g

/-- `build_graph(repo_path, skip_tests=..., fuzzy_search=...,
follow_relative_imports=..., verbose=...)`.  The four keyword parameters are
declared by the Python function but none of them is read anywhere in its body
(`verbose` only gates `print` calls, which have no effect on the result). -/
def build_graph (repo : Repo) (skip_tests fuzzy_search follow_relative_imports verbose : Bool) :
    Except BuildErr Graph := do
  let st ← afterStep1 repo
  let G ← st.file_nodes.foldlM (step2File repo.root) st.g
  st.file_nodes.foldlM step3File G

/-! ## Concrete repository snapshots used to settle the claims -/

/-- A healthy parsed `.py` file with the given syntax tree. -/
def okPy (tree : Option (List PyStmt)) : FileContent :=
  ⟨true, true, "", "", tree⟩

/-- A healthy non-Python text file with the given content. -/
def okText (text : String) : FileContent :=
  ⟨true, true, text, text, none⟩

/-- Subdirectory `a` holds `a/x.py`; its sibling `b` is empty and is walked
after `a`. -/
def repoC1 : Repo :=
  ⟨["repo"], .mk []
    [("a", .mk [⟨"x.py", okPy (some [])⟩] []),
     ("b", .mk [] [])]⟩

/-- `main.py` at the repository root plus `pkg/mod.py`. -/
def repoC2 : Repo :=
  ⟨["repo"], .mk [⟨"main.py", okPy (some [])⟩]
    [("pkg", .mk [⟨"mod.py", okPy (some [])⟩] [])]⟩

/-- `a.py` declares a top-level `helper` and a class `C` whose method `m`
calls `helper()`. -/
def repoC3 : Repo :=
  ⟨["repo"], .mk
    [⟨"a.py", okPy (some
      [.functionDef "helper" [.pass] 1 2 (some "def helper(): pass"),
       .classDef "C" []
         [.functionDef "m" [.exprStmt (.call (.name "helper") [])] 4 5 none]
         3 5 none])⟩] []⟩

/-- `a.py` declares a top-level `helper` and a class `C` whose constructor
`__init__` calls `helper()`. -/
def repoC4 : Repo :=
  ⟨["repo"], .mk
    [⟨"a.py", okPy (some
      [.functionDef "helper" [.pass] 1 2 (some "def helper(): pass"),
       .classDef "C" []
         [.functionDef "__init__" [.exprStmt (.call (.name "helper") [])] 4 5 none]
         3 5 none])⟩] []⟩

/-- A repository whose only `.py` file cannot be opened (IO/permission
failure). -/
def repoC5read : Repo :=
  ⟨["repo"], .mk [⟨"a.py", ⟨false, true, "", "", none⟩⟩] []⟩

/-- A repository whose only `.py` file is not valid utf-8. -/
def repoC5decode : Repo :=
  ⟨["repo"], .mk [⟨"a.py", ⟨true, false, "", "", none⟩⟩] []⟩

/-- A repository whose only `.py` file is readable but fails to parse. -/
def repoC5syntax : Repo :=
  ⟨["repo"], .mk [⟨"a.py", okPy none⟩] []⟩

/-- A trivial healthy repository. -/
def repoTriv : Repo :=
  ⟨["repo"], .mk [] []⟩

/-- The root holds a README named `Readme.md` — a case variant matching the
candidate list case-insensitively but not literally. -/
def repoC6case : Repo :=
  ⟨["repo"], .mk [⟨"Readme.md", okText "x"⟩] []⟩

/-- The root holds `README.md` whose content has surrounding whitespace. -/
def repoC6strip : Repo :=
  ⟨["repo"], .mk [⟨"README.md", okText " hi \n"⟩] []⟩

/-- The root holds both `readme.md` and `README.txt`. -/
def repoC6two : Repo :=
  ⟨["repo"], .mk [⟨"readme.md", okText " hi \n"⟩, ⟨"README.txt", okText "other"⟩] []⟩

/-- A repository with a test file under `tests/`. -/
def repoC7 : Repo :=
  ⟨["repo"], .mk [] [("tests", .mk [⟨"t.py", okPy (some [])⟩] [])]⟩

/-- Scenario D: `pkg/mod.py` and `main.py` containing `from pkg import mod`. -/
def repoC8 : Repo :=
  ⟨["repo"], .mk
    [⟨"main.py", okPy (some [.importFrom (some "pkg") [("mod", none)] 0])⟩]
    [("pkg", .mk [⟨"mod.py", okPy (some [])⟩] [])]⟩

/-- Scenario C: `class Sub(Base)` is declared before `class Base`. -/
def repoC9 : Repo :=
  ⟨["repo"], .mk
    [⟨"a.py", okPy (some
      [.classDef "Sub" [.name "Base"] [.pass] 1 2 none,
       .classDef "Base" [] [.pass] 3 4 none])⟩] []⟩

/-- A repository whose own absolute path contains the excluded component
`env`. -/
def repoC10 : Repo :=
  ⟨["home", "env", "proj"], .mk [⟨"a.py", okPy (some [])⟩] []⟩

/-- The graph `build_graph` produces for `repoTriv` (the root sentinel plus
the `"."` node the walk registers for the repository root itself). -/
def gTriv : Graph :=
  ⟨[("/", { type := some "directory", file_path := some "/" }),
    (".", { type := some "directory", file_path := some "." })],
   [⟨"/", ".", "contains", none⟩]⟩

/-- A small graph holding the two file nodes of scenario D. -/
def gC8w : Graph :=
  ⟨[("main.py", {}), ("pkg/mod.py", {})], []⟩

/-- A small graph holding two class symbol nodes of one file. -/
def gC9w : Graph :=
  ⟨[("a.py:Sub", {}), ("a.py:Base", {})], []⟩

/-! ## Shared lemmas: node-presence monotonicity of the graph operations -/

theorem hasNode_addNode_of {G : Graph} {k x : String} {d : NodeData}
    (h : G.hasNode x = true) : (G.addNode k d).hasNode x = true := by
  unfold Graph.addNode
  split
  · simp only [Graph.hasNode, List.any_map] at h ⊢
    have hfun : ((fun p : String × NodeData => p.1 == x) ∘
        (fun p : String × NodeData => if p.1 == k then (p.1, mergeData p.2 d) else p)) =
        (fun p : String × NodeData => p.1 == x) := by
      funext p
      by_cases hpk : p.1 = k <;> simp [hpk]
    rw [hfun]
    exact h
  · simp only [Graph.hasNode, List.any_append] at h ⊢
    simp [h]

theorem hasNode_ensureNode_of {G : Graph} {k x : String}
    (h : G.hasNode x = true) : (G.ensureNode k).hasNode x = true := by
  unfold Graph.ensureNode
  split
  · exact h
  · simp only [Graph.hasNode, List.any_append] at h ⊢
    simp [h]

theorem hasNode_addEdge_of {G : Graph} {u v ty : String} {al : Option (Option String)}
    {x : String} (h : G.hasNode x = true) : (G.addEdge u v ty al).hasNode x = true := by
  unfold Graph.addEdge
  exact hasNode_ensureNode_of (hasNode_ensureNode_of h)

theorem hasNode_removeNode_of {G : Graph} {k x : String}
    (h : G.hasNode x = true) (hx : x ≠ k) : (G.removeNode k).hasNode x = true := by
  simp only [Graph.hasNode, Graph.removeNode, List.any_eq_true] at h ⊢
  obtain ⟨p, hp, hpx⟩ := h
  refine ⟨p, List.mem_filter.mpr ⟨hp, ?_⟩, hpx⟩
  have hpe : p.1 = x := by simpa using hpx
  simpa [hpe] using hx

theorem foldl_pres {α β : Type} (P : α → Prop) (f : α → β → α)
    (hf : ∀ a b, P a → P (f a b)) :
    ∀ (l : List β) (a : α), P a → P (l.foldl f a)
  | [], _, h => h
  | b :: l, a, h => foldl_pres P f hf l (f a b) (hf a b h)

theorem foldlM_pres {α β : Type} (P : α → Prop) (f : α → β → Except BuildErr α)
    (hf : ∀ a b a', P a → f a b = .ok a' → P a') :
    ∀ (l : List β) (a a' : α), P a → List.foldlM f a l = .ok a' → P a' := by
  intro l
  induction l with
  | nil =>
    intro a a' h heq
    simp only [List.foldlM_nil, pure] at heq
    cases heq
    exact h
  | cons b l ih =>
    intro a a' h heq
    rw [List.foldlM_cons] at heq
    cases hfb : f a b with
    | error e =>
      rw [hfb] at heq
      simp [Bind.bind, Except.bind] at heq
    | ok a1 =>
      rw [hfb] at heq
      simp only [Bind.bind, Except.bind] at heq
      exact ih a1 a' (hf a b a1 h hfb) heq

/-! ## Shared lemmas: every build step preserves node presence (steps 2 and 3
never remove a node; step 1 removes only directory keys held on the pruning
stack) -/

theorem hasNode_step2Entity_of {root : DirTree} {rel_path module : String} {G : Graph}
    {ent : String × Option String} {x : String} (h : G.hasNode x = true) :
    (step2Entity root rel_path module G ent).hasNode x = true := by
  unfold step2Entity
  cases h1 : resolve_module (module ++ "." ++ ent.1) root with
  | some comps =>
    simp only [h1]
    split
    · exact hasNode_addEdge_of h
    · exact h
  | none =>
    simp only [h1]
    cases h2 : resolve_module module root with
    | some comps =>
      simp only [h2]
      split
      · exact hasNode_addEdge_of h
      · exact h
    | none =>
      simp only [h2]
      exact h

theorem hasNode_step2Import_of {root : DirTree} {rel_path : String} {G : Graph}
    {imp : ImportRec} {x : String} (h : G.hasNode x = true) :
    (step2Import root rel_path G imp).hasNode x = true := by
  unfold step2Import
  cases imp with
  | plain module asname =>
    cases h1 : resolve_module module root with
    | some comps =>
      simp only [h1]
      split
      · exact hasNode_addEdge_of h
      · exact h
    | none =>
      simp only [h1]
      exact h
  | fromImport module entities =>
    simp only
    split
    · cases h1 : resolve_module module root with
      | some comps =>
        simp only [h1]
        split
        · exact hasNode_addEdge_of h
        · exact h
      | none =>
        simp only [h1]
        exact h
    · exact foldl_pres (fun (g : Graph) => g.hasNode x = true) _
        (fun _ _ hg => hasNode_step2Entity_of hg) _ _ h

theorem hasNode_step2File_of {root : DirTree} {G G' : Graph}
    {fn : String × List String × FileContent} {x : String}
    (heq : step2File root G fn = .ok G') (h : G.hasNode x = true) :
    G'.hasNode x = true := by
  unfold step2File at heq
  cases hr : read_tree fn.2.2 with
  | error e =>
    rw [hr] at heq
    simp [Bind.bind, Except.bind] at heq
  | ok t? =>
    rw [hr] at heq
    simp only [Bind.bind, Except.bind, pure, Except.pure] at heq
    cases heq
    exact foldl_pres (fun (g : Graph) => g.hasNode x = true) _
      (fun _ _ hg => hasNode_step2Import_of hg) _ _ h

theorem hasNode_step3Call_of {rel_path funcName : String} {G : Graph}
    {called x : String} (h : G.hasNode x = true) :
    (step3Call rel_path funcName G called).hasNode x = true := by
  unfold step3Call
  dsimp only
  split
  · exact hasNode_addEdge_of h
  · exact h

theorem hasNode_step3Base_of {rel_path clsName : String} {G : Graph}
    {base : PyExpr} {x : String} (h : G.hasNode x = true) :
    (step3Base rel_path clsName G base).hasNode x = true := by
  unfold step3Base
  split
  · exact h
  · dsimp only
    split
    · exact hasNode_addEdge_of h
    · exact h

theorem hasNode_step3Stmt_of {rel_path : String} {G : Graph} {s : PyStmt}
    {x : String} (h : G.hasNode x = true) :
    (step3Stmt rel_path G s).hasNode x = true := by
  unfold step3Stmt
  split
  · exact foldl_pres (fun (g : Graph) => g.hasNode x = true) _
      (fun _ _ hg => hasNode_step3Base_of hg) _ _ h
  · exact foldl_pres (fun (g : Graph) => g.hasNode x = true) _
      (fun _ _ hg => hasNode_step3Call_of hg) _ _ h
  · exact foldl_pres (fun (g : Graph) => g.hasNode x = true) _
      (fun _ _ hg => hasNode_step3Call_of hg) _ _ h
  · exact h

theorem hasNode_step3File_of {G G' : Graph}
    {fn : String × List String × FileContent} {x : String}
    (heq : step3File G fn = .ok G') (h : G.hasNode x = true) :
    G'.hasNode x = true := by
  unfold step3File at heq
  cases hr : read_tree fn.2.2 with
  | error e =>
    rw [hr] at heq
    simp [Bind.bind, Except.bind] at heq
  | ok t? =>
    rw [hr] at heq
    simp only [Bind.bind, Except.bind] at heq
    cases t? with
    | none =>
      simp only [pure, Except.pure] at heq
      cases heq
      exact h
    | some tree =>
      simp only [pure, Except.pure] at heq
      cases heq
      exact foldl_pres (fun (g : Graph) => g.hasNode x = true) _
        (fun _ _ hg => hasNode_step3Stmt_of hg) _ _ h

theorem popStack_pres {x : String} :
    ∀ (st : List (String × Bool)) (G : Graph) (rel_dir : String),
      G.hasNode x = true → (∀ p ∈ st, p.1 ≠ x) →
      (popStack G st rel_dir).1.hasNode x = true ∧
        ∀ p ∈ (popStack G st rel_dir).2, p.1 ≠ x := by
  intro st
  induction st with
  | nil =>
    intro G rel_dir h _
    exact ⟨h, by simp [popStack]⟩
  | cons top rest ih =>
    intro G rel_dir h hst
    unfold popStack
    split
    · exact ⟨h, hst⟩
    · apply ih
      · split
        · exact h
        · exact hasNode_removeNode_of h (fun hx => hst top (by simp) (by rw [hx]))
      · intro p hp
        exact hst p (List.mem_cons_of_mem _ hp)

theorem step1File_pres {relComps : List String} {rel_dir : String}
    {st st' : WalkState} {f : FileEntry} {x : String}
    (heq : step1File relComps rel_dir st f = .ok st')
    (h : st.g.hasNode x = true) :
    st'.g.hasNode x = true ∧ st'.dir_stack = st.dir_stack := by
  unfold step1File at heq
  split at heq
  · split at heq
    · simp at heq
    · split at heq
      · simp at heq
      · simp only [Except.ok.injEq] at heq
        subst heq
        refine ⟨?_, rfl⟩
        exact foldl_pres (fun (g : Graph) => g.hasNode x = true) _
          (fun _ _ hg => hasNode_addEdge_of (hasNode_addNode_of hg)) _ _
          (hasNode_addEdge_of (hasNode_addNode_of h))
  · split at heq
    · simp only [Except.ok.injEq] at heq
      subst heq
      exact ⟨hasNode_addEdge_of (hasNode_addNode_of h), rfl⟩
    · simp only [Except.ok.injEq] at heq
      subst heq
      exact ⟨h, rfl⟩

/-- Invariant carried through step 1: the root node is present and no stack
entry holds the root key. -/
def RootInv (st : WalkState) : Prop :=
  st.g.hasNode "/" = true ∧ ∀ p ∈ st.dir_stack, p.1 ≠ "/"

theorem step1Entry_pres {absPath : List String} {st st' : WalkState}
    {entry : List String × List FileEntry}
    (heq : step1Entry absPath st entry = .ok st') (h : RootInv st) :
    RootInv st' := by
  unfold step1Entry at heq
  split at heq
  · cases heq
    exact h
  · dsimp only at heq
    have hG0 : (registerDir st.g (relDirOf entry.1)).hasNode "/" = true := by
      unfold registerDir
      split
      · exact hasNode_addEdge_of (hasNode_addNode_of h.1)
      · exact h.1
    have hpop := popStack_pres st.dir_stack (registerDir st.g (relDirOf entry.1))
      (relDirOf entry.1) hG0 h.2
    refine foldlM_pres RootInv _ ?_ entry.2 _ st' ?_ heq
    · intro a b a' ha hab
      obtain ⟨h1, h2⟩ := step1File_pres hab ha.1
      refine ⟨h1, ?_⟩
      rw [h2]
      exact ha.2
    · constructor
      · exact hpop.1
      · intro p hp
        dsimp only at hp
        split at hp
        · rcases List.mem_cons.mp hp with hpe | hpm
          · subst hpe
            intro hcon
            simp_all
          · exact hpop.2 p hpm
        · exact hpop.2 p hp

theorem step0_pres {t : DirTree} {G G' : Graph} (heq : step0 t G = .ok G')
    (h : G.hasNode "/" = true) : G'.hasNode "/" = true := by
  unfold step0 at heq
  split at heq
  · cases heq
    exact h
  · split at heq
    · simp at heq
    · cases heq
      exact hasNode_addEdge_of (hasNode_addNode_of h)

theorem afterStep1_rootInv {repo : Repo} {st : WalkState}
    (heq : afterStep1 repo = .ok st) : RootInv st := by
  unfold afterStep1 at heq
  cases h0 : step0 repo.root initGraph with
  | error e =>
    rw [h0] at heq
    simp [Bind.bind, Except.bind] at heq
  | ok G0 =>
    rw [h0] at heq
    simp only [Bind.bind, Except.bind] at heq
    have hg0 : G0.hasNode "/" = true := step0_pres h0 (by decide)
    exact foldlM_pres RootInv _ (fun _ _ _ ha hab => step1Entry_pres hab ha)
      _ _ st ⟨hg0, by simp⟩ heq

/-- Whenever `build_graph` returns, the returned graph holds the root
node `"/"`. -/
theorem build_graph_root {repo : Repo} {s f r v : Bool} {G : Graph}
    (h : build_graph repo s f r v = .ok G) : G.hasNode "/" = true := by
  unfold build_graph at h
  cases h1 : afterStep1 repo with
  | error e =>
    rw [h1] at h
    simp [Bind.bind, Except.bind] at h
  | ok st =>
    rw [h1] at h
    simp only [Bind.bind, Except.bind] at h
    have hst := (afterStep1_rootInv h1).1
    cases h2 : List.foldlM (step2File repo.root) st.g st.file_nodes with
    | error e =>
      rw [h2] at h
      simp at h
    | ok G2 =>
      rw [h2] at h
      have hG2 : G2.hasNode "/" = true :=
        foldlM_pres (fun (g : Graph) => g.hasNode "/" = true) _
          (fun _ _ _ ha hab => hasNode_step2File_of hab ha) _ _ _ hst h2
      exact foldlM_pres (fun (g : Graph) => g.hasNode "/" = true) _
        (fun _ _ _ ha hab => hasNode_step3File_of hab ha) _ _ _ hG2 h

/-! ## Shared lemmas: skip filtering on absolute paths -/

theorem is_skip_dir_append_of {a : List String} (r : List String)
    (h : is_skip_dir a = true) : is_skip_dir (a ++ r) = true := by
  unfold is_skip_dir at h ⊢
  simp only [List.any_eq_true] at h ⊢
  obtain ⟨sk, hsk, hc⟩ := h
  refine ⟨sk, hsk, ?_⟩
  have hm : sk ∈ a := by simpa using hc
  simpa using List.mem_append_left r hm

theorem step1Entry_skip {absPath : List String} {st : WalkState}
    {entry : List String × List FileEntry}
    (h : is_skip_dir (absPath ++ entry.1) = true) :
    step1Entry absPath st entry = .ok st := by
  unfold step1Entry
  simp [h]

theorem walk_all_skip {absPath : List String} (h : is_skip_dir absPath = true) :
    ∀ (entries : List (List String × List FileEntry)) (st : WalkState),
      List.foldlM (step1Entry absPath) st entries = .ok st := by
  intro entries
  induction entries with
  | nil =>
    intro st
    rfl
  | cons e rest ih =>
    intro st
    rw [List.foldlM_cons, step1Entry_skip (is_skip_dir_append_of e.1 h)]
    simpa [Bind.bind, Except.bind] using ih st

theorem step0_nodes {t : DirTree} {G : Graph}
    (heq : step0 t initGraph = .ok G) :
    ∀ p ∈ G.nodes, p.1 = "/" ∨ p.1 = "__README__" := by
  unfold step0 at heq
  split at heq
  · cases heq
    intro p hp
    simp only [initGraph, Graph.addNode, Graph.hasNode] at hp
    simp at hp
    left
    simp [hp]
  · split at heq
    · simp at heq
    · cases heq
      intro p hp
      simp only [initGraph, Graph.addNode, Graph.addEdge, Graph.ensureNode,
        Graph.hasNode] at hp
      simp at hp
      rcases hp with hp | hp
      · left
        simp [hp]
      · right
        simp [hp]

/-! ## The claims -/

/-- C1: the claim is refuted by running the builder on `repoC1`.  The claim
says a directory node is removed exactly when traversal ascends past it with
no child attached, and that every directory node in the final graph has a
descendant.  In the code the `dir_included` flags are never set to `True`, so
on `repoC1` the walk deletes directory `a` when it ascends to `b` even though
`a/x.py` had been attached under it (leaving `a/x.py` with no incident edge),
while the empty directory `b`, still on the stack when the walk ends, survives
as a childless directory node. -/
theorem claim_C1_dir_pruning_failure :
    (build_graph repoC1 true true false true).toOption.map (fun G =>
      (G.hasNode "a", G.hasNode "b", G.hasNode "a/x.py",
       G.edges.any (fun e => e.tgt == "a/x.py"),
       G.edges.any (fun e => e.src == "b" || e.tgt == "b"))) =
    some (false, true, true, false, true) := by
  decide

/-- C2: the claim is refuted by running the builder on `repoC2`.  The claim
says every non-root node has an incoming `contains` edge from its parent and
the `contains` relation forms a spanning tree.  On `repoC2` the root's own
directory node `"."` (holding the `contains` edge to the root-level file
`main.py`) is deleted when the walk descends into `pkg`, so `main.py` is left
in the final graph with no incoming edge at all. -/
theorem claim_C2_containment_tree_failure :
    (build_graph repoC2 true true false true).toOption.map (fun G =>
      (G.hasNode "main.py", G.edges.any (fun e => e.tgt == "main.py"))) =
    some (true, false) := by
  decide

/-- C7: `skip_tests` is declared (default `True`) and documented by the
function's own docstring as excluding paths starting with `test`, but no line
of the body ever reads it: the result is identical for both flag values, and
a file under `tests/` keeps its node even with `skip_tests = True`. -/
theorem claim_C7_skip_tests_unused :
    (∀ (repo : Repo) (f r v : Bool),
      build_graph repo true f r v = build_graph repo false f r v) ∧
    (build_graph repoC7 true true false true).toOption.map (fun G =>
      G.hasNode "tests/t.py") = some true := by
  exact ⟨fun _ _ _ _ => rfl, by decide⟩

/-- C10: confirmed.  `_is_skip_dir` is applied to the absolute path of each
walked directory, so when any component of the repository's own absolute path
equals an excluded name every walked directory (whose absolute path extends
it) is skipped: the build reduces to the README probe alone and the graph
holds nothing but the root node and possibly the README node. -/
theorem claim_C10_absolute_path_exclusion :
    (∀ (repo : Repo) (s f r v : Bool),
      is_skip_dir repo.absPath = true →
      build_graph repo s f r v = step0 repo.root initGraph ∧
      ∀ G, build_graph repo s f r v = .ok G →
        ∀ p ∈ G.nodes, p.1 = "/" ∨ p.1 = "__README__") ∧
    (build_graph repoC10 true true false true).toOption.map (fun G =>
      G.nodes.map Prod.fst) = some ["/"] := by
  constructor
  · intro repo s f r v hskip
    have hb : build_graph repo s f r v = step0 repo.root initGraph := by
      unfold build_graph afterStep1
      cases h0 : step0 repo.root initGraph with
      | error e =>
        simp [h0, Bind.bind, Except.bind]
      | ok G0 =>
        simp only [h0, Bind.bind, Except.bind]
        rw [walk_all_skip hskip (walkEntries repo.root) ⟨G0, [], []⟩]
        simp [List.foldlM, pure, Except.pure]
    refine ⟨hb, ?_⟩
    intro G hG
    rw [hb] at hG
    exact step0_nodes hG
  · decide

/-- Witness for C10 at `repoC10`, whose absolute path `/home/env/proj`
contains the excluded component `env`. -/
theorem claim_C10_witness :
    build_graph repoC10 true true false true = step0 repoC10.root initGraph :=
  (claim_C10_absolute_path_exclusion.1 repoC10 true true false true (by decide)).1

/-- C3: counterexample.  The claim says both endpoints of every
`imports`/`inherits`/`invokes` edge are already present when the edge is
added.  On `repoC3` the method `C.m` is registered under its dotted key
`a.py:C.m`, but the invokes pass keys the edge source by the simple name:
after step 2 (all nodes registered, before reference resolution) no node
`a.py:m` exists, yet the final graph holds an invokes edge out of `a.py:m`,
a node `add_edge` created implicitly with no attributes. -/
theorem claim_C3_counterexample :
    (afterStep2 repoC3).toOption.map (fun G => G.hasNode "a.py:m") = some false ∧
    (build_graph repoC3 true true false true).toOption.map (fun G =>
      (G.edges.any (fun e => e == ⟨"a.py:m", "a.py:helper", "invokes", none⟩),
       G.lookup "a.py:m")) =
    some (true, some {}) := by
  exact ⟨by decide, by decide⟩

/-- C3 (amended): at every edge-adding site of steps 2 and 3, the builder
either adds no edge or adds one whose target key exists in the graph at that
moment (`G` is the graph as the site runs); unresolved targets are silently
dropped.  The source endpoint is not checked: it is the importing file's key
for `imports` edges, but the simple-name key for `inherits`/`invokes` edges,
which (per the counterexample) may be absent and is then created implicitly
by the edge insertion. -/
theorem claim_C3_amended :
    (∀ (root : DirTree) (rel_path module : String) (G : Graph)
        (ent : String × Option String),
      step2Entity root rel_path module G ent = G ∨
      ∃ tgt, G.hasNode tgt = true ∧
        step2Entity root rel_path module G ent =
          G.addEdge rel_path tgt "imports" none) ∧
    (∀ (root : DirTree) (rel_path module : String) (G : Graph)
        (asname : Option String),
      step2Import root rel_path G (.plain module asname) = G ∨
      ∃ tgt, G.hasNode tgt = true ∧
        step2Import root rel_path G (.plain module asname) =
          G.addEdge rel_path tgt "imports" (some asname)) ∧
    (∀ (root : DirTree) (rel_path module : String) (G : Graph)
        (a : Option String),
      step2Import root rel_path G (.fromImport module [("*", a)]) = G ∨
      ∃ tgt, G.hasNode tgt = true ∧
        step2Import root rel_path G (.fromImport module [("*", a)]) =
          G.addEdge rel_path tgt "imports" none) ∧
    (∀ (rel_path clsName : String) (G : Graph) (base : PyExpr),
      step3Base rel_path clsName G base = G ∨
      ∃ bn, trailingName base = some bn ∧
        G.hasNode (rel_path ++ ":" ++ bn) = true ∧
        step3Base rel_path clsName G base =
          G.addEdge (rel_path ++ ":" ++ clsName) (rel_path ++ ":" ++ bn)
            "inherits" none) ∧
    (∀ (rel_path funcName : String) (G : Graph) (called : String),
      step3Call rel_path funcName G called = G ∨
      (G.hasNode (rel_path ++ ":" ++ called) = true ∧
        step3Call rel_path funcName G called =
          G.addEdge (rel_path ++ ":" ++ funcName) (rel_path ++ ":" ++ called)
            "invokes" none)) := by
  refine ⟨?_, ?_, ?_, ?_, ?_⟩
  · intro root rel_path module G ent
    unfold step2Entity
    cases h1 : resolve_module (module ++ "." ++ ent.1) root with
    | some comps =>
      simp only [h1]
      by_cases hn : G.hasNode (joinRel comps) = true
      · exact Or.inr ⟨joinRel comps, hn, by simp [hn]⟩
      · simp only [Bool.not_eq_true] at hn
        exact Or.inl (by simp [hn])
    | none =>
      simp only [h1]
      cases h2 : resolve_module module root with
      | some comps =>
        simp only [h2]
        by_cases hn : G.hasNode (joinRel comps ++ ":" ++ ent.1) = true
        · exact Or.inr ⟨joinRel comps ++ ":" ++ ent.1, hn, by simp [hn]⟩
        · simp only [Bool.not_eq_true] at hn
          exact Or.inl (by simp [hn])
      | none =>
        simp only [h2]
        left
        trivial
  · intro root rel_path module G asname
    unfold step2Import
    cases h1 : resolve_module module root with
    | some comps =>
      simp only [h1]
      by_cases hn : G.hasNode (joinRel comps) = true
      · exact Or.inr ⟨joinRel comps, hn, by simp [hn]⟩
      · simp only [Bool.not_eq_true] at hn
        exact Or.inl (by simp [hn])
    | none =>
      simp only [h1]
      left
      trivial
  · intro root rel_path module G a
    unfold step2Import
    simp only [List.length_cons, List.length_nil, List.head?]
    cases h1 : resolve_module module root with
    | some comps =>
      simp only [h1]
      by_cases hn : G.hasNode (joinRel comps) = true
      · exact Or.inr ⟨joinRel comps, hn, by simp [hn]⟩
      · simp only [Bool.not_eq_true] at hn
        exact Or.inl (by simp [hn])
    | none =>
      simp only [h1]
      exact Or.inl (by simp)
  · intro rel_path clsName G base
    unfold step3Base
    cases hb : trailingName base with
    | none => exact Or.inl rfl
    | some bn =>
      simp only
      by_cases hn : G.hasNode (rel_path ++ ":" ++ bn) = true
      · exact Or.inr ⟨bn, rfl, hn, by simp [hn]⟩
      · simp only [Bool.not_eq_true] at hn
        exact Or.inl (by simp [hn])
  · intro rel_path funcName G called
    unfold step3Call
    dsimp only
    by_cases hn : G.hasNode (rel_path ++ ":" ++ called) = true
    · exact Or.inr ⟨hn, by simp [hn]⟩
    · simp only [Bool.not_eq_true] at hn
      exact Or.inl (by simp [hn])

/-- C4: counterexample.  The claim says the graph never contains a node for a
declared constructor and that calls inside a constructor body are attributed
to no node.  On `repoC4`, whose `C.__init__` calls `helper()`, the
reference-resolution pass walks every `FunctionDef` (it does not repeat the
extractor's `__init__` suppression) and keys the source by the simple name:
the final graph holds the node `a.py:__init__` and an invokes edge from it to
`a.py:helper` — the constructor's call is attributed after all. -/
theorem claim_C4_counterexample :
    (build_graph repoC4 true true false true).toOption.map (fun G =>
      (G.hasNode "a.py:__init__",
       G.edges.any (fun e => e == ⟨"a.py:__init__", "a.py:helper", "invokes", none⟩))) =
    some (true, true) := by
  decide

/-- C4 (amended): the symbol extractor suppresses a method literally named
`__init__` declared directly inside a class — it records neither the method
nor anything in its body, so no symbol node with the constructor's dotted key
is created.  The reference-resolution pass however processes `__init__`
bodies like any other function: a call inside a constructor whose simple-name
target exists in the same file yields an invokes edge from the key
`<file>:__init__`, a node created implicitly by the edge. -/
theorem claim_C4_amended :
    (∀ (ns ts : List String) (body : List PyStmt) (l e : Nat)
        (seg : Option String) (rest : List PyStmt),
      ts.getLast? = some "class" →
      analyzeList ns ts (.functionDef "__init__" body l e seg :: rest) =
        analyzeList ns ts rest) ∧
    (build_graph repoC4 true true false true).toOption.map (fun G =>
      (G.hasNode "a.py:C.__init__", G.lookup "a.py:__init__",
       G.edges.any (fun e => e == ⟨"a.py:__init__", "a.py:helper", "invokes", none⟩))) =
    some (false, some {}, true) := by
  constructor
  · intro ns ts body l e seg rest h
    rw [analyzeList, analyzeStmt]
    simp [h]
  · decide

/-- Witness for C4's extractor clause with a concrete class scope. -/
theorem claim_C4_witness :
    analyzeList [] ["class"] [.functionDef "__init__" [.pass] 1 1 none] =
      analyzeList [] ["class"] [] :=
  claim_C4_amended.1 [] ["class"] [.pass] 1 1 none [] (by decide)

/-- C5: counterexample.  The claim says `build_graph` never raises and that
an unreadable file is skipped with no node created.  The step-1 read of a
`.py` file (`open(abs_path).read()` with a strict decode) is not wrapped in
any handler: on a repository whose only `.py` file is unreadable the builder
raises `OSError`, and on one whose only `.py` file is not valid utf-8 it
raises `UnicodeDecodeError` — no graph is returned in either case. -/
theorem claim_C5_counterexample :
    build_graph repoC5read true true false true = .error .osError ∧
    build_graph repoC5decode true true false true = .error .unicodeDecodeError := by
  exact ⟨rfl, rfl⟩

/-- C5 (amended): an unreadable or undecodable `.py` file makes `build_graph`
raise (the read precedes node creation, so no node for it is created either);
only decode and syntax errors *inside* `_read_tree` are graceful: a readable,
decodable file that fails to parse keeps its file node and contributes no
symbol nodes and only `contains` edges exist in such a graph.  Whenever
`build_graph` does return a graph, that graph holds the root directory
node. -/
theorem claim_C5_amended :
    (∀ (repo : Repo) (s f r v : Bool) (G : Graph),
      build_graph repo s f r v = .ok G → G.hasNode "/" = true) ∧
    (build_graph repoC5syntax true true false true).toOption.map (fun G =>
      (G.hasNode "a.py",
       G.nodes.all (fun p => !strStartsWith p.1 "a.py:"),
       G.edges.all (fun e => e.type == "contains"))) =
    some (true, true, true) := by
  constructor
  · intro repo s f r v G h
    exact build_graph_root h
  · decide

/-- Witness for C5's root-node clause on a healthy trivial repository. -/
theorem claim_C5_witness : gTriv.hasNode "/" = true :=
  claim_C5_amended.1 repoTriv true true false true gTriv rfl

/-- C6: counterexample.  The claim says README discovery is case-insensitive
and the node text is the file content verbatim.  Both fail: a root file
`Readme.md` (a case variant the claim's case-insensitive match would accept)
produces no readme node at all, and a matched `README.md` whose content is
`" hi \n"` is stored stripped as `"hi"`, not verbatim. -/
theorem claim_C6_counterexample :
    (build_graph repoC6case true true false true).toOption.map (fun G =>
      G.nodes.countP (fun p => p.2.type == some "readme")) = some 0 ∧
    (build_graph repoC6strip true true false true).toOption.map (fun G =>
      (G.lookup "__README__").bind NodeData.code) = some (some "hi") ∧
    ("hi" : String) ≠ " hi \n" := by
  exact ⟨by decide, by decide, by decide⟩

/-- C6 (amended): README discovery probes the fixed candidate list
`README.md, readme.md, README.txt, readme.txt, README` in order by exact
(case-sensitive) file-name match, the first existing candidate wins and the
probe then stops; the readme node's text is the file content (decoded
ignoring errors) with leading and trailing whitespace stripped, not verbatim.
On `repoC6two` (holding both `readme.md` and `README.txt`) the single readme
node records `readme.md` stripped. -/
theorem claim_C6_amended :
    (∀ (t : DirTree) (G : Graph), findReadme t = none → step0 t G = .ok G) ∧
    (∀ (t : DirTree) (G : Graph) (c : String) (fc : FileContent),
      findReadme t = some (c, fc) → fc.readable = true →
      step0 t G = .ok ((G.addNode "__README__"
        { type := some "readme", file_path := some c,
          code := some (strStrip fc.textIgnore) }).addEdge
            "/" "__README__" "contains" none)) ∧
    (build_graph repoC6two true true false true).toOption.map (fun G =>
      (G.lookup "__README__",
       G.nodes.countP (fun p => p.2.type == some "readme"))) =
    some (some { type := some "readme", file_path := some "readme.md",
                 code := some "hi" }, 1) := by
  refine ⟨?_, ?_, by decide⟩
  · intro t G h
    unfold step0
    rw [h]
  · intro t G c fc h hr
    unfold step0
    rw [h]
    simp [hr]

/-- Witness for C6's first-match clause: a root whose only candidate is a
plain `README` file. -/
theorem claim_C6_witness :
    step0 (DirTree.mk [⟨"README", okText " a "⟩] []) initGraph =
      .ok ((initGraph.addNode "__README__"
        { type := some "readme", file_path := some "README",
          code := some (strStrip (okText " a ").textIgnore) }).addEdge
            "/" "__README__" "contains" none) :=
  claim_C6_amended.2.1 (DirTree.mk [⟨"README", okText " a "⟩] []) initGraph
    "README" (okText " a ") rfl rfl

/-- C8: confirmed.  For a named from-import entity, resolution is
entity-first: if `module.entity` resolves as a nested module path to a file
whose node exists, the imports edge goes to that file node; only otherwise is
`module` alone resolved and the qualified symbol key `<file>:<entity>` tried,
with an edge exactly when that node exists.  On scenario D (`main.py` holding
`from pkg import mod` beside `pkg/mod.py`) the build yields the imports edge
`main.py → pkg/mod.py`. -/
theorem claim_C8_from_import_entity_first :
    (∀ (root : DirTree) (rel_path module : String) (G : Graph)
        (ent : String × Option String) (comps : List String),
      resolve_module (module ++ "." ++ ent.1) root = some comps →
      G.hasNode (joinRel comps) = true →
      step2Entity root rel_path module G ent =
        G.addEdge rel_path (joinRel comps) "imports" none) ∧
    (∀ (root : DirTree) (rel_path module : String) (G : Graph)
        (ent : String × Option String) (comps : List String),
      resolve_module (module ++ "." ++ ent.1) root = none →
      resolve_module module root = some comps →
      step2Entity root rel_path module G ent =
        (if G.hasNode (joinRel comps ++ ":" ++ ent.1) then
          G.addEdge rel_path (joinRel comps ++ ":" ++ ent.1) "imports" none
        else G)) ∧
    (build_graph repoC8 true true false true).toOption.map (fun G =>
      G.edges.any (fun e => e == ⟨"main.py", "pkg/mod.py", "imports", none⟩)) =
    some true := by
  refine ⟨?_, ?_, by decide⟩
  · intro root rel_path module G ent comps h1 h2
    unfold step2Entity
    simp [h1, h2]
  · intro root rel_path module G ent comps h1 h2
    unfold step2Entity
    simp [h1, h2]

/-- Witness for C8's entity-first clause at scenario D's snapshot. -/
theorem claim_C8_witness :
    step2Entity repoC8.root "main.py" "pkg" gC8w ("mod", none) =
      gC8w.addEdge "main.py" (joinRel ["pkg", "mod.py"]) "imports" none :=
  claim_C8_from_import_entity_first.1 repoC8.root "main.py" "pkg" gC8w
    ("mod", none) ["pkg", "mod.py"] (by decide) (by decide)

/-- C9: confirmed.  Each base-class expression is reduced to its simple
trailing name (`ast.Name` identifier or the trailing attribute of an
`ast.Attribute`; anything else contributes nothing), the target key is
`<file>:<simple name>` in the same file, and the inherits edge is added
exactly when that node exists.  Because all symbol nodes are registered in
step 1 before any reference resolution, declaration order is irrelevant: on
scenario C (`Sub(Base)` declared before `Base`) the build still yields the
inherits edge `a.py:Sub → a.py:Base`. -/
theorem claim_C9_inherits_simple_name :
    (∀ (rel_path clsName bn : String) (G : Graph) (base : PyExpr),
      trailingName base = some bn →
      step3Base rel_path clsName G base =
        (if G.hasNode (rel_path ++ ":" ++ bn) then
          G.addEdge (rel_path ++ ":" ++ clsName) (rel_path ++ ":" ++ bn)
            "inherits" none
        else G)) ∧
    (∀ (rel_path clsName : String) (G : Graph) (base : PyExpr),
      trailingName base = none → step3Base rel_path clsName G base = G) ∧
    (trailingName (.name "Base") = some "Base" ∧
      trailingName (.attr (.name "mod") "Base") = some "Base" ∧
      trailingName (.call (.name "f") []) = none) ∧
    (build_graph repoC9 true true false true).toOption.map (fun G =>
      G.edges.any (fun e => e == ⟨"a.py:Sub", "a.py:Base", "inherits", none⟩)) =
    some true := by
  refine ⟨?_, ?_, ⟨rfl, rfl, rfl⟩, by decide⟩
  · intro rel_path clsName bn G base h
    unfold step3Base
    rw [h]
  · intro rel_path clsName G base h
    unfold step3Base
    rw [h]

/-- Witness for C9's resolution clause with both class nodes registered. -/
theorem claim_C9_witness :
    step3Base "a.py" "Sub" gC9w (.name "Base") =
      (if gC9w.hasNode ("a.py" ++ ":" ++ "Base") then
        gC9w.addEdge ("a.py" ++ ":" ++ "Sub") ("a.py" ++ ":" ++ "Base")
          "inherits" none
      else gC9w) :=
  claim_C9_inherits_simple_name.1 "a.py" "Sub" "Base" gC9w (.name "Base") rfl

end CodeSage

